import Mathlib

/-!
Verification development for react-attractor, a small React library that
maps rendered DOM elements back to the component props and user metadata
that produced them.

Embedding choices:
- A DOM element is identified purely by reference, so elements are modelled
  as opaque identifiers (`Elem := Nat`).
- The provider's `WeakMap<Element, TetherMetadata>` is modelled, for its
  functional behaviour, as an association list keyed by element identity
  (`Store`), with `storeSet`/`storeGet` mirroring `WeakMap.set`/`get`.
- `registerTether` takes `Option Elem`: `none` models a null/undefined
  element argument, matching the source guard `if (!element) return;`.
- `getTether` returns `Option`, `none` modelling JavaScript `undefined`.
- `useTetherContext` reads the React context, which is either the provider
  value or the default `null`; throwing is modelled with `Except`.
-/

/-- Element identity (DOM elements are keyed by reference equality). -/
abbrev Elem := Nat

/-- Metadata record stored per element: the component's remaining props
(`Record<string, unknown>`) and the optional user-supplied metadata.
Source: `src/types.ts`, `interface TetherMetadata`. -/
structure TetherMetadata (V : Type) where
  props : List (String × V)
  metadata : Option V
  deriving DecidableEq, Repr

/-- The per-provider association store (`WeakMap<Element, TetherMetadata>`),
modelled as an association list for its functional behaviour. -/
abbrev Store (V : Type) := List (Elem × TetherMetadata V)

/-- `WeakMap.set`: replaces the entry for `e` if present, otherwise appends. -/
def storeSet {V : Type} (s : Store V) (e : Elem) (m : TetherMetadata V) : Store V :=
  match s with
  | [] => [(e, m)]
  | (k, v) :: rest => if k = e then (e, m) :: rest else (k, v) :: storeSet rest e m

/-- `WeakMap.get`: the entry for `e`, or `none` (undefined) when absent. -/
def storeGet {V : Type} (s : Store V) (e : Elem) : Option (TetherMetadata V) :=
  match s with
  | [] => none
  | (k, v) :: rest => if k = e then some v else storeGet rest e

/-- `registerTether` from `src/TetherContext.tsx` lines 23-26:
`if (!element) return; tetherMapRef.current.set(element, metadata);`.
A `none` element (null/undefined) leaves the store untouched. -/
def registerTether {V : Type} (s : Store V) (element : Option Elem)
    (m : TetherMetadata V) : Store V :=
  match element with
  | none => s
  | some e => storeSet s e m

/-- `getTether` from `src/TetherContext.tsx` lines 28-30:
`return tetherMapRef.current.get(element);`. -/
def getTether {V : Type} (s : Store V) (element : Elem) : Option (TetherMetadata V) :=
  storeGet s element

lemma storeGet_storeSet_self {V : Type} (s : Store V) (e : Elem) (m : TetherMetadata V) :
    storeGet (storeSet s e m) e = some m := by
  induction s with
  | nil => simp [storeSet, storeGet]
  | cons hd tl ih =>
    obtain ⟨k, v⟩ := hd
    by_cases hk : k = e
    · simp [storeSet, storeGet, hk]
    · simp [storeSet, storeGet, hk, ih]

lemma storeGet_storeSet_ne {V : Type} (s : Store V) (e k : Elem) (m : TetherMetadata V)
    (h : k ≠ e) : storeGet (storeSet s e m) k = storeGet s k := by
  have h' : e ≠ k := Ne.symm h
  induction s with
  | nil => simp [storeSet, storeGet, h']
  | cons hd tl ih =>
    obtain ⟨k', v⟩ := hd
    by_cases hk : k' = e
    · subst hk
      simp [storeSet, storeGet, h']
    · simp [storeSet, storeGet, hk, ih]

/-- Claim C1: registering a metadata record for a non-null element and then
looking the element up in the same store returns exactly that record. -/
theorem c1_register_get_roundtrip {V : Type} (s : Store V) (e : Elem)
    (m : TetherMetadata V) :
    getTether (registerTether s (some e) m) e = some m := by
  simp [registerTether, getTether, storeGet_storeSet_self]

/-- Claim C2: registering `m1` and then `m2` for the same non-null element
makes a subsequent lookup return `m2` and only `m2`: the prior record is
fully replaced, never merged. -/
theorem c2_reregister_overwrites {V : Type} (s : Store V) (e : Elem)
    (m1 m2 : TetherMetadata V) :
    getTether (registerTether (registerTether s (some e) m1) (some e) m2) e = some m2 := by
  simp [registerTether, getTether, storeGet_storeSet_self]

/-- Operations that mutate a provider's store. The only mutating operation
the provider exposes is `registerTether`. -/
inductive TetherOp (V : Type) where
  | register (element : Option Elem) (m : TetherMetadata V)
  deriving DecidableEq

/-- Apply one operation to a store. -/
def applyOp {V : Type} (s : Store V) : TetherOp V → Store V
  | .register el m => registerTether s el m

/-- Apply a history of operations, oldest first, starting from `s`. -/
def applyOps {V : Type} (s : Store V) (ops : List (TetherOp V)) : Store V :=
  ops.foldl applyOp s

lemma getTether_registerTether_other {V : Type} (s : Store V) (el : Option Elem)
    (e : Elem) (m : TetherMetadata V) (h : el ≠ some e) :
    getTether (registerTether s el m) e = getTether s e := by
  match el with
  | none => rfl
  | some k =>
    have hk : e ≠ k := by
      intro he
      exact h (by rw [he])
    simp [registerTether, getTether, storeGet_storeSet_ne _ _ _ _ hk]

lemma getTether_applyOps_not_registered {V : Type} (ops : List (TetherOp V))
    (s : Store V) (e : Elem) (h : ∀ m, TetherOp.register (some e) m ∉ ops) :
    getTether (applyOps s ops) e = getTether s e := by
  induction ops generalizing s with
  | nil => rfl
  | cons op rest ih =>
    obtain ⟨el, m⟩ := op
    have hrest : ∀ m', TetherOp.register (some e) m' ∉ rest := by
      intro m' hmem
      exact h m' (List.mem_cons_of_mem _ hmem)
    have hel : el ≠ some e := by
      intro hcontra
      subst hcontra
      exact h m (List.mem_cons_self _ _)
    calc getTether (applyOps (applyOp s (TetherOp.register el m)) rest) e
        = getTether (applyOp s (TetherOp.register el m)) e := ih _ hrest
      _ = getTether s e := getTether_registerTether_other s el e m hel

/-- Claim C3: on a store whose whole history never registered element `e`
(starting from the empty map a fresh provider creates), `getTether e`
returns `none` (JavaScript `undefined`): a normal result, not an error. -/
theorem c3_get_unregistered_absent {V : Type} (ops : List (TetherOp V)) (e : Elem)
    (h : ∀ m, TetherOp.register (some e) m ∉ ops) :
    getTether (applyOps [] ops) e = none := by
  rw [getTether_applyOps_not_registered ops [] e h]
  rfl

/-- Witness for C3: a history registering only element 2 leaves element 1
unregistered, and looking element 1 up yields `none`. -/
theorem c3_get_unregistered_absent_witness :
    getTether (applyOps [] [TetherOp.register (some 2) (⟨[], none⟩ : TetherMetadata Nat)]) 1
      = none := by
  exact c3_get_unregistered_absent _ 1 (by intro m hm; simp at hm)

/-- React context read by `useTetherContext`: either the value installed by
an enclosing `TetherProvider`, or the default `null` when no provider
encloses the caller. Throwing is modelled with `Except`. -/
def useTetherContext {A : Type} (ctx : Option A) : Except String A :=
  match ctx with
  | none => Except.error "useTetherContext must be used within a TetherProvider"
  | some c => Except.ok c

/-- Claim C4: outside any `TetherProvider` the context is `null`, and
`useTetherContext` throws a descriptive error before yielding any accessor
(so no registration or lookup can occur); inside a provider it returns the
context value unchanged and never silently no-ops. -/
theorem c4_useTetherContext_outside_provider_throws {A : Type} :
    useTetherContext (none : Option A)
        = Except.error "useTetherContext must be used within a TetherProvider"
      ∧ "useTetherContext must be used within a TetherProvider" ≠ ""
      ∧ ∀ c : A, useTetherContext (some c) = Except.ok c := by
  refine ⟨rfl, by decide, fun c => rfl⟩

/-- Claim C5: registering with a null/undefined element returns no value,
throws nothing and leaves the store entirely unchanged: every subsequent
lookup on every element gives the same result as before. -/
theorem c5_register_null_noop {V : Type} (s : Store V) (m : TetherMetadata V) :
    registerTether s none m = s
      ∧ ∀ e : Elem, getTether (registerTether s none m) e = getTether s e := by
  exact ⟨rfl, fun e => rfl⟩

/-- A world of provider instances. Each `TetherProvider` creates its own
`WeakMap` via `useRef(new WeakMap())` (`src/TetherContext.tsx` line 21), so
distinct provider instances (identified by `Nat`) own distinct stores. -/
def ProviderWorld (V : Type) := Nat → Store V

/-- Registration performed through the accessor of provider `p`: it mutates
only the `WeakMap` closed over by that provider's `registerTether`. -/
def registerVia {V : Type} (w : ProviderWorld V) (p : Nat) (el : Option Elem)
    (m : TetherMetadata V) : ProviderWorld V :=
  fun q => if q = p then registerTether (w q) el m else w q

/-- Lookup through the accessor of provider `p`: it reads only that
provider's own `WeakMap`. -/
def getVia {V : Type} (w : ProviderWorld V) (p : Nat) (e : Elem) :
    Option (TetherMetadata V) :=
  getTether (w p) e

/-- Claim C6: distinct provider instances (nested or sibling) own distinct
stores: a registration through provider `p1` is never observable through a
different provider `p2`, for any element, while it is observable through
`p1` itself; there is no cross-provider fallback or inheritance. -/
theorem c6_provider_isolation {V : Type} (w : ProviderWorld V) (p1 p2 : Nat)
    (e : Elem) (m : TetherMetadata V) (h : p1 ≠ p2) :
    getVia (registerVia w p1 (some e) m) p2 e = getVia w p2 e
      ∧ getVia (registerVia w p1 (some e) m) p1 e = some m := by
  constructor
  · simp [getVia, registerVia, Ne.symm h]
  · simp [getVia, registerVia, registerTether, getTether, storeGet_storeSet_self]

/-- Witness for C6: with two sibling providers 0 and 1 over empty stores,
registering element 7 through provider 0 is invisible through provider 1
and visible through provider 0. -/
theorem c6_provider_isolation_witness :
    getVia (registerVia (fun _ => ([] : Store Nat)) 0 (some 7) ⟨[], some 3⟩) 1 7
        = getVia (fun _ => ([] : Store Nat)) 1 7
      ∧ getVia (registerVia (fun _ => ([] : Store Nat)) 0 (some 7) ⟨[], some 3⟩) 0 7
        = some ⟨[], some 3⟩ :=
  c6_provider_isolation (fun _ => ([] : Store Nat)) 0 1 7 ⟨[], some 3⟩ (by decide)

/-- A props object, modelled as an association list from property names to
values (JavaScript objects have at most one value per key; lookup takes the
first occurrence, as `filter`-based removal removes all of them). -/
abbrev PropList (V : Type) := List (String × V)

/-- JavaScript property access `props[k]`: `none` models `undefined`. -/
def lookupProp {V : Type} (k : String) : PropList V → Option V
  | [] => none
  | (k', v) :: rest => if k' = k then some v else lookupProp k rest

/-- Rest destructuring `const \x7b tetherMetadata, ...restProps \x7d = props`:
all properties except the named one. -/
def removeProp {V : Type} (k : String) (ps : PropList V) : PropList V :=
  ps.filter (fun kv => kv.1 ≠ k)

/-- The outcome of one render of the component produced by `withTether`
(`src/withTether.tsx` lines 124-154): the props forwarded to the wrapped
component, and the ref callback supplied alongside them. The callback is
modelled by its effect on the nearest enclosing provider's store. -/
structure TetheredRender (V : Type) where
  passedProps : PropList V
  tetherRef : Option Elem → Store V → Store V

/-- One render of `TetheredComponent`:
`const \x7b tetherMetadata, ...restProps \x7d = props;`
`finalMetadata = \x7b props: restProps, metadata: tetherMetadata \x7d;`
`tetherRef = (element) => \x7b if (element) registerTether(element, finalMetadata) \x7d;`
and the wrapped component receives `\x7b ...restProps, ref: tetherRef \x7d`. -/
def withTetherRender {V : Type} (props : PropList V) : TetheredRender V :=
  let tetherMetadataProp := lookupProp "tetherMetadata" props
  let restProps := removeProp "tetherMetadata" props
  let finalMetadata : TetherMetadata V := ⟨restProps, tetherMetadataProp⟩
  { passedProps := restProps
    tetherRef := fun element store =>
      match element with
      | some e => registerTether store (some e) finalMetadata
      | none => store }

lemma lookupProp_removeProp_self {V : Type} (k : String) (ps : PropList V) :
    lookupProp k (removeProp k ps) = none := by
  induction ps with
  | nil => rfl
  | cons hd tl ih =>
    obtain ⟨k', v⟩ := hd
    by_cases hk : k' = k
    · simpa [removeProp, hk] using ih
    · simpa [removeProp, lookupProp, hk] using ih

lemma lookupProp_removeProp_ne {V : Type} (k r : String) (ps : PropList V)
    (h : k ≠ r) : lookupProp k (removeProp r ps) = lookupProp k ps := by
  induction ps with
  | nil => rfl
  | cons hd tl ih =>
    obtain ⟨k', v⟩ := hd
    by_cases hk : k' = r
    · subst hk
      have : ¬k' = k := fun he => h (he ▸ rfl)
      simpa [removeProp, lookupProp, this] using ih
    · by_cases hkk : k' = k
      · subst hkk
        simp [removeProp, List.filter_cons, h, lookupProp]
      · simpa [removeProp, lookupProp, hk, hkk] using ih

/-- Claim C7: on each render `withTether` splits the incoming props into the
reserved `tetherMetadata` prop and the rest; the wrapped component receives
exactly the remaining props unchanged (the reserved prop stripped, every
other prop preserved); the supplied ref callback, invoked with a non-null
element, registers `\x7b props: remaining props, metadata: tetherMetadata \x7d`
in the enclosing store, and invoked with null registers nothing. -/
theorem c7_withTether_partition {V : Type} (props : PropList V) (s : Store V) (e : Elem) :
    (withTetherRender props).passedProps = removeProp "tetherMetadata" props
      ∧ lookupProp "tetherMetadata" (withTetherRender props).passedProps = none
      ∧ (∀ k, k ≠ "tetherMetadata" →
          lookupProp k (withTetherRender props).passedProps = lookupProp k props)
      ∧ getTether ((withTetherRender props).tetherRef (some e) s) e
          = some ⟨(withTetherRender props).passedProps, lookupProp "tetherMetadata" props⟩
      ∧ (withTetherRender props).tetherRef none s = s := by
  refine ⟨rfl, ?_, ?_, ?_, rfl⟩
  · exact lookupProp_removeProp_self _ props
  · intro k hk
    exact lookupProp_removeProp_ne k _ props hk
  · simp [withTetherRender, registerTether, getTether, storeGet_storeSet_self]

/-- Witness for C7: wrapping with props `\x7b label: 10, tetherMetadata: 99 \x7d`
forwards `label` unchanged, and the ref callback fired with element 0
registers the partitioned record, retrievable by `getTether`. -/
theorem c7_withTether_partition_witness :
    lookupProp "label"
        (withTetherRender [("label", (10 : Nat)), ("tetherMetadata", 99)]).passedProps
        = lookupProp "label" [("label", (10 : Nat)), ("tetherMetadata", 99)]
      ∧ getTether
          ((withTetherRender [("label", (10 : Nat)), ("tetherMetadata", 99)]).tetherRef
            (some 0) [])
          0
        = some ⟨(withTetherRender [("label", (10 : Nat)), ("tetherMetadata", 99)]).passedProps,
            lookupProp "tetherMetadata" [("label", (10 : Nat)), ("tetherMetadata", 99)]⟩ := by
  have h := c7_withTether_partition [("label", (10 : Nat)), ("tetherMetadata", 99)] [] 0
  exact ⟨h.2.2.1 "label" (by decide), h.2.2.2.1⟩

/-- JavaScript `||` where the left operand is a possibly-undefined string:
`undefined` (`none`) and the empty string are falsy, so the right operand is
taken; any other string is returned as is. -/
def jsStrOrElse (a : Option String) (b : String) : String :=
  match a with
  | none => b
  | some str => if str = "" then b else str

/-- `TetheredComponent.displayName` from `src/withTether.tsx` line 151:
`withTether(` + (`WrappedComponent.displayName || WrappedComponent.name ||
'Component'`) + `)`. The wrapped component's `displayName` may be undefined
(`none`); its function `name` is always a string, `""` when anonymous. -/
def derivedDisplayName (displayName : Option String) (fname : String) : String :=
  "withTether(" ++ jsStrOrElse displayName (jsStrOrElse (some fname) "Component") ++ ")"

/-- Claim C9: the produced component's display name is derived from the
wrapped component's `displayName` when present (truthy), otherwise from its
function name; with neither available it falls back to the generic
placeholder `Component`. -/
theorem c9_displayName_derivation (d fname : String) :
    (d ≠ "" → derivedDisplayName (some d) fname = "withTether(" ++ d ++ ")")
      ∧ (fname ≠ "" → derivedDisplayName none fname = "withTether(" ++ fname ++ ")")
      ∧ derivedDisplayName none "" = "withTether(Component)" := by
  refine ⟨fun h => ?_, fun h => ?_, rfl⟩
  · simp [derivedDisplayName, jsStrOrElse, h]
  · simp [derivedDisplayName, jsStrOrElse, h]

/-- Witness for C9: a component named `Box` with `displayName` set, one with
only a function name `fn`, and an anonymous component with neither. -/
theorem c9_displayName_derivation_witness :
    derivedDisplayName (some "Box") "fn" = "withTether(Box)"
      ∧ derivedDisplayName none "fn" = "withTether(fn)"
      ∧ derivedDisplayName none "" = "withTether(Component)" := by
  have h := c9_displayName_derivation "Box" "fn"
  exact ⟨h.1 (by decide), h.2.1 (by decide), h.2.2⟩

/-- JavaScript runtime values, as far as `isForwardRefComponent` can
distinguish them: `null`, `undefined`, primitives, functions (with their
function name) and objects (with the names of the properties `in` sees). -/
inductive JSValue where
  | null
  | undefined
  | boolean (b : Bool)
  | number (n : Int)
  | string (s : String)
  | function (fname : String)
  | object (keys : List String)
  deriving DecidableEq, Repr

/-- JavaScript `typeof`: note `typeof null` is `object`. -/
def jsTypeof : JSValue → String
  | .null => "object"
  | .undefined => "undefined"
  | .boolean _ => "boolean"
  | .number _ => "number"
  | .string _ => "string"
  | .function _ => "function"
  | .object _ => "object"

/-- JavaScript `k in v`, only reached on objects here (guarded by the
`typeof` check): property-name membership. -/
def jsHasProp (k : String) : JSValue → Bool
  | .object keys => keys.contains k
  | _ => false

/-- `isForwardRefComponent` from `src/withTether.tsx` lines 84-86:
`component !== null && typeof component === 'object' && component !== null
&& '$$typeof' in component`. -/
def isForwardRefComponent (c : JSValue) : Bool :=
  (!(c == JSValue.null)) && (jsTypeof c == "object") && (!(c == JSValue.null))
    && jsHasProp "$$typeof" c

/-- Claim C10: `isForwardRefComponent x` is true exactly when `x` is a
non-null object with a `$$typeof` property, whether or not it is actually a
forwardRef component (memo- or lazy-wrapped objects also pass), and it is
false on every plain function component, since functions are not of object
type. -/
theorem c10_isForwardRefComponent_characterization :
    (∀ c : JSValue, isForwardRefComponent c = true ↔
        ∃ keys, c = JSValue.object keys ∧ "$$typeof" ∈ keys)
      ∧ ∀ fname, isForwardRefComponent (JSValue.function fname) = false := by
  constructor
  · intro c
    cases c <;> simp [isForwardRefComponent, jsTypeof, jsHasProp]
  · intro fname
    rfl
